import Mathlib

/-!
Shallow embedding of `src/fusion/noise_filter.py` from the
Urban_PointCloud_Processing repository.

Floating-point values are modelled as rationals; NumPy arrays as lists.
The two algorithmic collaborators (`LabelConnectedComp.get_components`,
`FastGridInterpolator.__call__`) and the elevation reader
(`AHNReader.filter_tile`) live outside the embedded core and are modelled
as opaque function parameters, faithful to their call sites in the source.
-/

namespace UPCP

/-- A 3-D point, one row of the `points` array of shape (n_points, 3). -/
structure Point3 where
  x : ℚ
  y : ℚ
  z : ℚ
  deriving DecidableEq, Repr

/-- The result of `ahn_reader.filter_tile(tilecode)`: a dict with keys
`x`, `y` and `ground_surface`. -/
structure AhnTile where
  x : List ℚ
  y : List ℚ
  ground_surface : List (List ℚ)
  deriving DecidableEq, Repr

/-- The two algorithmic collaborators invoked by `get_label_mask`.
`get_components` models `LabelConnectedComp(label, octree_level=o,
min_component_size=m).get_components(points)`; `interp` models
`FastGridInterpolator(x, y, surface)(points)`. Their internals are out of
scope; only their input/output behaviour matters here. -/
structure Collab where
  get_components : ℤ → ℤ → ℤ → List Point3 → List ℤ
  interp : List ℚ → List ℚ → List (List ℚ) → List Point3 → List ℚ

/-- Errors raised by NumPy inside `get_label_mask`: a boolean-index length
mismatch (`points[mask]` with `len(mask) != len(points)`) raises an
IndexError; collaborator outputs whose length does not match the masked
subset make the elementwise `|` / `-` / masked assignment raise a
ValueError (the size-1 broadcasting corner case is also modelled as an
error). -/
inductive NFError where
  | indexError
  | valueError
  deriving DecidableEq, Repr

/-- Instrumentation of one `get_label_mask` call: how many times each
collaborator was invoked, and the log records printed. -/
structure CallTrace where
  cluster_calls : ℕ
  ahn_calls : ℕ
  interp_calls : ℕ
  log : List String
  deriving DecidableEq, Repr

/-- The single log record printed by `get_label_mask`
(`print(f'Noise filter => processed (label=..., ...).')`). -/
def logMsg (label : ℤ) : String :=
  "Noise filter => processed (label=" ++ toString label ++ ")."

/-- `points[mask]`: the ordered subsequence of `points` at the true
positions of the boolean `mask`. -/
def maskedPoints : List Point3 → List Bool → List Point3
  | p :: ps, true :: ms => p :: maskedPoints ps ms
  | _ :: ps, false :: ms => maskedPoints ps ms
  | _, _ => []

/-- `cc_labels, counts = np.unique(point_components, return_counts=True);
cc_labels_filtered = cc_labels[counts < min_component_size]`.
NumPy returns the unique labels sorted; only membership in the filtered
set is ever used downstream, so the labels are modelled by `dedup`. -/
def smallLabels (cps : List ℤ) (mcs : ℤ) : List ℤ :=
  cps.dedup.filter (fun c => (cps.count c : ℤ) < mcs)

/-- `np.in1d(point_components, cc_labels_filtered)`: per-element membership
of each component identifier in the small-component identifiers. -/
def isSmallList (cps : List ℤ) (mcs : ℤ) : List Bool :=
  cps.map (fun c => decide (c ∈ smallLabels cps mcs))

/-- `(points[mask, 2] - target_z) < -epsilon`, elementwise. -/
def belowGroundList (masked : List Point3) (tz : List ℚ) (eps : ℚ) : List Bool :=
  List.zipWith (fun p t => decide (p.z - t < -eps)) masked tz

/-- The fused per-masked-point decision of line 77-78 of the source:
`np.in1d(point_components, cc_labels_filtered) | ((points[mask, 2] -
target_z) < -self.epsilon)`. -/
def noiseVector (cps : List ℤ) (mcs : ℤ) (masked : List Point3) (tz : List ℚ)
    (eps : ℚ) : List Bool :=
  List.zipWith (fun a b => a || b) (isSmallList cps mcs) (belowGroundList masked tz eps)

/-- `label_mask = np.zeros((len(points),), dtype=bool);
label_mask[mask] = noise`: scatter the per-masked-point booleans back into
a full-length array, false at unmasked positions. -/
def scatterMask : List Bool → List Bool → List Bool
  | [], _ => []
  | b :: ms, ns =>
    if b then ns.headD false :: scatterMask ms ns.tail
    else false :: scatterMask ms ns

/-- The `NoiseFilter` object: configuration fixed at construction.
`ahn_reader` models the stored elevation reader's `filter_tile` method. -/
structure NoiseFilter where
  label : ℤ
  ahn_reader : String → AhnTile
  epsilon : ℚ
  octree_level : ℤ
  min_component_size : ℤ

/-- `NoiseFilter.__init__`: stores the parameters unchanged. The source
performs no parameter validation of any kind. -/
def NoiseFilter.init (label : ℤ) (ahn_reader : String → AhnTile) (epsilon : ℚ)
    (octree_level : ℤ) (min_component_size : ℤ) : NoiseFilter :=
  ⟨label, ahn_reader, epsilon, octree_level, min_component_size⟩

/-- The component assignment obtained by `get_label_mask`:
`LabelConnectedComp(self.label, octree_level=self.octree_level,
min_component_size=self.min_component_size).get_components(points[mask])`. -/
def componentsOf (nf : NoiseFilter) (co : Collab) (points : List Point3)
    (mask : List Bool) : List ℤ :=
  co.get_components nf.label nf.octree_level nf.min_component_size
    (maskedPoints points mask)

/-- The interpolated ground elevations obtained by `get_label_mask`:
`ahn_tile = self.ahn_reader.filter_tile(tilecode); fast_z =
FastGridInterpolator(ahn_tile['x'], ahn_tile['y'],
ahn_tile['ground_surface']); target_z = fast_z(points[mask, :])`. -/
def targetZOf (nf : NoiseFilter) (co : Collab) (points : List Point3)
    (mask : List Bool) (tilecode : String) : List ℚ :=
  co.interp (nf.ahn_reader tilecode).x (nf.ahn_reader tilecode).y
    (nf.ahn_reader tilecode).ground_surface (maskedPoints points mask)

/-- `NoiseFilter.get_label_mask(points, labels, mask, tilecode)`.
`labels` is accepted but never read, as in the source. Each collaborator
(clustering, elevation reader, interpolator) is invoked exactly once, with
no short-circuit for an empty masked subset; the trace records the
invocation counts and the single log record printed on success. -/
def NoiseFilter.get_label_mask (nf : NoiseFilter) (co : Collab)
    (points : List Point3) (labels : List ℤ) (mask : List Bool)
    (tilecode : String) : Except NFError (List Bool × CallTrace) :=
  if mask.length = points.length then
    let masked := maskedPoints points mask
    let point_components := componentsOf nf co points mask
    let target_z := targetZOf nf co points mask tilecode
    if point_components.length = masked.length ∧ target_z.length = masked.length then
      Except.ok
        (scatterMask mask
          (noiseVector point_components nf.min_component_size masked target_z
            nf.epsilon),
         ⟨1, 1, 1, [logMsg nf.label]⟩)
    else Except.error NFError.valueError
  else Except.error NFError.indexError

/-- State threaded through one call: the three input arrays. The source
body assigns only to fresh local arrays (`label_mask` and intermediates),
never to `points`, `labels` or `mask`, so the state passes through the
call unchanged. -/
structure NFStore where
  points : List Point3
  labels : List ℤ
  mask : List Bool
  deriving Repr

/-- State-passing form of `get_label_mask`: returns the final state of the
input arrays together with the output mask and the printed log records. -/
def NoiseFilter.get_label_mask_run (nf : NoiseFilter) (co : Collab)
    (st : NFStore) (tilecode : String) :
    Except NFError (NFStore × List Bool × List String) :=
  match nf.get_label_mask co st.points st.labels st.mask tilecode with
  | Except.ok (lm, tr) => Except.ok (st, lm, tr.log)
  | Except.error e => Except.error e

/-! ### Helper lemmas -/

/-- The masked subset has one point per true entry of the mask. -/
lemma maskedPoints_length : ∀ (points : List Point3) (mask : List Bool),
    mask.length ≤ points.length →
    (maskedPoints points mask).length = mask.count true := by
  intro points
  induction points with
  | nil =>
    intro mask h
    cases mask with
    | nil => simp [maskedPoints]
    | cons b ms => simp at h
  | cons p ps ih =>
    intro mask h
    cases mask with
    | nil => simp [maskedPoints]
    | cons b ms =>
      cases b <;>
        simp [maskedPoints, List.count_cons, ih ms (by simpa using h)]

/-- An all-false mask selects no points. -/
lemma maskedPoints_eq_nil (points : List Point3) (mask : List Bool)
    (hle : mask.length ≤ points.length) (h : mask.count true = 0) :
    maskedPoints points mask = [] := by
  have := maskedPoints_length points mask hle
  rw [h] at this
  exact List.eq_nil_of_length_eq_zero this

/-- `scatterMask` output always has the length of the mask. -/
lemma scatterMask_length : ∀ (ms ns : List Bool),
    (scatterMask ms ns).length = ms.length := by
  intro ms
  induction ms with
  | nil => intro ns; simp [scatterMask]
  | cons b ms ih =>
    intro ns
    cases b <;> simp [scatterMask, ih]

/-- `tail` shifts `getD` by one. -/
lemma tail_getD (ns : List Bool) (k : ℕ) :
    ns.tail.getD k false = ns.getD (k + 1) false := by
  cases ns <;> rfl

/-- Pointwise value of the scatter: position `i` holds the `j`-th noise
value, where `j` counts the true mask entries before `i`; unmasked
positions hold false. -/
lemma scatterMask_getD : ∀ (ms ns : List Bool) (i : ℕ),
    (scatterMask ms ns).getD i false =
      if ms.getD i false then ns.getD ((ms.take i).count true) false
      else false := by
  intro ms
  induction ms with
  | nil => intro ns i; simp [scatterMask]
  | cons b ms ih =>
    intro ns i
    cases i with
    | zero =>
      cases b <;> cases ns <;> simp [scatterMask]
    | succ i =>
      cases b with
      | false =>
        simpa [scatterMask, List.count_cons] using ih ns i
      | true =>
        simp only [scatterMask, if_pos, List.getD_cons_succ, List.take_succ_cons,
          List.count_cons, ih ns.tail i, tail_getD]
        simp [add_comm]

/-- Scattering into an all-false mask yields the all-false array. -/
lemma scatterMask_all_false : ∀ (ms ns : List Bool), ms.count true = 0 →
    scatterMask ms ns = List.replicate ms.length false := by
  intro ms
  induction ms with
  | nil => intro ns _; simp [scatterMask]
  | cons b ms ih =>
    intro ns h
    cases b with
    | false =>
      simp only [List.count_cons, if_neg] at h
      simp [scatterMask, List.replicate_succ, ih ns (by simpa using h)]
    | true => simp [List.count_cons] at h

/-- If the mask is true at `i`, the true entries of `take i` are fewer
than those of the whole mask. -/
lemma count_take_lt : ∀ (ms : List Bool) (i : ℕ), i < ms.length →
    ms.getD i false = true → (ms.take i).count true < ms.count true := by
  intro ms
  induction ms with
  | nil => intro i hi; simp at hi
  | cons b ms ih =>
    intro i hi hg
    cases i with
    | zero =>
      simp only [List.getD_cons_zero] at hg
      subst hg
      simp [List.count_cons]
    | succ i =>
      have hi' : i < ms.length := by simpa using hi
      have hg' : ms.getD i false = true := by simpa using hg
      have := ih i hi' hg'
      cases b <;> simp [List.count_cons] <;> omega

/-- An identifier appearing in the assignment is in `smallLabels` iff its
number of occurrences is strictly below the threshold. -/
lemma mem_smallLabels_iff (cps : List ℤ) (mcs : ℤ) (c : ℤ) (hc : c ∈ cps) :
    c ∈ smallLabels cps mcs ↔ (cps.count c : ℤ) < mcs := by
  simp [smallLabels, List.mem_filter, List.mem_dedup, hc]

/-- Pointwise value of `isSmallList` at a valid index. -/
lemma isSmallList_getD (cps : List ℤ) (mcs : ℤ) (j : ℕ) (hj : j < cps.length) :
    (isSmallList cps mcs).getD j false =
      decide ((cps.count (cps.getD j 0) : ℤ) < mcs) := by
  have hj' : j < (isSmallList cps mcs).length := by simp [isSmallList]; exact hj
  rw [List.getD_eq_getElem _ _ hj', List.getD_eq_getElem _ _ hj]
  simp only [isSmallList, List.getElem_map]
  have hmem : cps[j] ∈ cps := List.getElem_mem hj
  rw [decide_eq_decide]
  exact mem_smallLabels_iff cps mcs _ hmem

/-- Pointwise value of `belowGroundList` at a valid index. -/
lemma belowGroundList_getD (masked : List Point3) (tz : List ℚ) (eps : ℚ)
    (j : ℕ) (hj : j < masked.length) (hj2 : j < tz.length) :
    (belowGroundList masked tz eps).getD j false =
      decide ((masked.getD j ⟨0, 0, 0⟩).z - tz.getD j 0 < -eps) := by
  have hj' : j < (belowGroundList masked tz eps).length := by
    simp [belowGroundList]
    omega
  rw [List.getD_eq_getElem _ _ hj', List.getD_eq_getElem _ _ hj,
    List.getD_eq_getElem _ _ hj2]
  simp [belowGroundList]

/-- Pointwise value of the fused noise vector at a valid index, when the
collaborator outputs have the length of the masked subset. -/
lemma noiseVector_getD (cps : List ℤ) (mcs : ℤ) (masked : List Point3)
    (tz : List ℚ) (eps : ℚ) (j : ℕ) (hc : cps.length = masked.length)
    (ht : tz.length = masked.length) (hj : j < masked.length) :
    (noiseVector cps mcs masked tz eps).getD j false =
      ((decide ((cps.count (cps.getD j 0) : ℤ) < mcs)) ||
       (decide ((masked.getD j ⟨0, 0, 0⟩).z - tz.getD j 0 < -eps))) := by
  have h1 : j < (isSmallList cps mcs).length := by simp [isSmallList]; omega
  have h2 : j < (belowGroundList masked tz eps).length := by
    simp [belowGroundList]; omega
  have hj' : j < (noiseVector cps mcs masked tz eps).length := by
    simp [noiseVector]; omega
  rw [List.getD_eq_getElem _ _ hj']
  simp only [noiseVector, List.getElem_zipWith]
  rw [← List.getD_eq_getElem _ false h1, ← List.getD_eq_getElem _ false h2,
    isSmallList_getD cps mcs j (by omega),
    belowGroundList_getD masked tz eps j hj (by omega)]

/-- The length of the noise vector under length-matching collaborators. -/
lemma noiseVector_length (cps : List ℤ) (mcs : ℤ) (masked : List Point3)
    (tz : List ℚ) (eps : ℚ) (hc : cps.length = masked.length)
    (ht : tz.length = masked.length) :
    (noiseVector cps mcs masked tz eps).length = masked.length := by
  simp [noiseVector, isSmallList, belowGroundList]
  omega

/-- A true `getD` lookup implies the index is in range. -/
lemma getD_true_lt {l : List Bool} {j : ℕ} (h : l.getD j false = true) :
    j < l.length := by
  by_contra hb
  push_neg at hb
  rw [List.getD_eq_default _ _ hb] at h
  simp at h

/-- Forward evaluation of `get_label_mask` on the success path. -/
lemma get_label_mask_eq_ok (nf : NoiseFilter) (co : Collab)
    (points : List Point3) (labels : List ℤ) (mask : List Bool)
    (tilecode : String)
    (hm : mask.length = points.length)
    (hc : (componentsOf nf co points mask).length =
      (maskedPoints points mask).length)
    (ht : (targetZOf nf co points mask tilecode).length =
      (maskedPoints points mask).length) :
    nf.get_label_mask co points labels mask tilecode =
      Except.ok
        (scatterMask mask
          (noiseVector (componentsOf nf co points mask) nf.min_component_size
            (maskedPoints points mask) (targetZOf nf co points mask tilecode)
            nf.epsilon),
         ⟨1, 1, 1, [logMsg nf.label]⟩) := by
  simp [NoiseFilter.get_label_mask, hm, hc, ht]

/-- Inversion of a successful `get_label_mask` call. -/
lemma get_label_mask_ok_inv (nf : NoiseFilter) (co : Collab)
    (points : List Point3) (labels : List ℤ) (mask : List Bool)
    (tilecode : String) (lm : List Bool) (tr : CallTrace)
    (h : nf.get_label_mask co points labels mask tilecode = Except.ok (lm, tr)) :
    mask.length = points.length ∧
    (componentsOf nf co points mask).length =
      (maskedPoints points mask).length ∧
    (targetZOf nf co points mask tilecode).length =
      (maskedPoints points mask).length ∧
    lm = scatterMask mask
      (noiseVector (componentsOf nf co points mask) nf.min_component_size
        (maskedPoints points mask) (targetZOf nf co points mask tilecode)
        nf.epsilon) ∧
    tr = ⟨1, 1, 1, [logMsg nf.label]⟩ := by
  simp only [NoiseFilter.get_label_mask] at h
  split_ifs at h with h1 h2
  · simp only [Except.ok.injEq, Prod.mk.injEq] at h
    exact ⟨h1, h2.1, h2.2, h.1.symm, h.2.symm⟩

/-! ### Concrete fixtures for witnesses and counterexamples -/

/-- A one-cell elevation tile with a flat ground surface at height 0. -/
def exTile : AhnTile := ⟨[0], [0], [[0]]⟩

/-- An elevation reader returning the flat example tile for every code. -/
def exReader : String → AhnTile := fun _ => exTile

/-- A concrete collaborator pair: every point is placed in component 0 and
the interpolated ground height is 0 everywhere. -/
def exCollab : Collab :=
  ⟨fun _ _ _ ps => ps.map (fun _ => 0), fun _ _ _ ps => ps.map (fun _ => 0)⟩

/-- An example point at the origin. -/
def pA : Point3 := ⟨0, 0, 0⟩

/-- An example filter with `epsilon = 1/5`, `octree_level = 9`,
`min_component_size = 100`. -/
def nfEx : NoiseFilter := NoiseFilter.init 1 exReader (1/5) 9 100

/-! ### Claims -/

/-- C1: for every call with a non-empty masked subset (and collaborators
returning one value per masked point), the call succeeds and at each
masked position `i` (the `j`-th masked point, `j` counting the true mask
entries before `i`) the output bit is true iff the number of points
sharing that point's component identifier is strictly less than
`min_component_size`, or the point's `z` minus the interpolated ground
height is strictly less than `-epsilon`. In particular `z - target_z =
-epsilon` is not flagged by the ground criterion, and a component with
exactly `min_component_size` members is not small. -/
theorem C1_fusion_disjunction (nf : NoiseFilter) (co : Collab)
    (points : List Point3) (labels : List ℤ) (mask : List Bool)
    (tilecode : String)
    (hm : mask.length = points.length)
    (hc : (componentsOf nf co points mask).length =
      (maskedPoints points mask).length)
    (ht : (targetZOf nf co points mask tilecode).length =
      (maskedPoints points mask).length)
    (hM : 0 < (maskedPoints points mask).length) :
    ∃ lm tr, nf.get_label_mask co points labels mask tilecode =
        Except.ok (lm, tr) ∧
      ∀ i, i < points.length → mask.getD i false = true →
        (lm.getD i false = true ↔
          (((componentsOf nf co points mask).count
              ((componentsOf nf co points mask).getD
                ((mask.take i).count true) 0) : ℤ) <
                nf.min_component_size ∨
           ((maskedPoints points mask).getD ((mask.take i).count true)
              ⟨0, 0, 0⟩).z -
             (targetZOf nf co points mask tilecode).getD
               ((mask.take i).count true) 0 < -nf.epsilon)) := by
  refine ⟨_, _, get_label_mask_eq_ok nf co points labels mask tilecode hm hc ht,
    ?_⟩
  intro i hi hmi
  have hj : (mask.take i).count true < (maskedPoints points mask).length := by
    rw [maskedPoints_length points mask (le_of_eq hm)]
    exact count_take_lt mask i (by omega) hmi
  rw [scatterMask_getD, hmi, if_pos rfl,
    noiseVector_getD _ _ _ _ _ _ hc ht hj]
  simp [decide_eq_true_iff]

/-- C2: every successful call returns a mask of the length of `points`,
and the output is false wherever the input mask is false — unmasked
points are never flagged. -/
theorem C2_masking_invariant (nf : NoiseFilter) (co : Collab)
    (points : List Point3) (labels : List ℤ) (mask : List Bool)
    (tilecode : String) (lm : List Bool) (tr : CallTrace)
    (h : nf.get_label_mask co points labels mask tilecode = Except.ok (lm, tr)) :
    lm.length = points.length ∧
      ∀ i, mask.getD i false = false → lm.getD i false = false := by
  obtain ⟨hm, _, _, rfl, -⟩ :=
    get_label_mask_ok_inv nf co points labels mask tilecode lm tr h
  refine ⟨by rw [scatterMask_length, hm], ?_⟩
  intro i hi
  rw [scatterMask_getD, hi]
  simp

/-- C1 witness: a single masked point in a singleton component (size 1 <
100) is flagged. -/
theorem C1_witness :
    ∃ lm tr, nfEx.get_label_mask exCollab [pA] [] [true] "t" =
        Except.ok (lm, tr) ∧ lm.getD 0 false = true := by
  obtain ⟨lm, tr, heq, hiff⟩ :=
    C1_fusion_disjunction nfEx exCollab [pA] [] [true] "t" (by decide)
      (by decide) (by decide) (by decide)
  refine ⟨lm, tr, heq, ?_⟩
  rw [hiff 0 (by decide) (by decide)]
  left
  decide

/-- C2 witness: with mask `[false]` over one point the call returns
`[false]`, of length 1, false at the unmasked position. -/
theorem C2_witness :
    ([false] : List Bool).length = ([pA] : List Point3).length ∧
      ∀ i, ([false] : List Bool).getD i false = false →
        ([false] : List Bool).getD i false = false :=
  C2_masking_invariant nfEx exCollab [pA] [] [false] "t" [false]
    ⟨1, 1, 1, [logMsg 1]⟩ rfl

/-- C3 counterexample: with an all-false mask the code still invokes the
clustering collaborator, the elevation reader and the interpolator (once
each), contradicting the claimed short-circuit. -/
theorem C3_counterexample :
    ¬ ∃ lm tr, nfEx.get_label_mask exCollab [pA] [] [false] "t" =
        Except.ok (lm, tr) ∧ tr.cluster_calls = 0 ∧ tr.ahn_calls = 0 ∧
        tr.interp_calls = 0 := by
  rintro ⟨lm, tr, heq, h1, -, -⟩
  have hval : nfEx.get_label_mask exCollab [pA] [] [false] "t" =
      Except.ok ([false], ⟨1, 1, 1, [logMsg 1]⟩) := rfl
  rw [hval] at heq
  simp only [Except.ok.injEq, Prod.mk.injEq] at heq
  obtain ⟨-, rfl⟩ := heq
  simp at h1

/-- C3 amended: when the mask selects zero points the call returns the
all-false mask of length `N`, but the clustering collaborator, the
elevation reader and the interpolator are nevertheless each invoked
exactly once (on the empty subset). -/
theorem C3_empty_mask (nf : NoiseFilter) (co : Collab) (points : List Point3)
    (labels : List ℤ) (mask : List Bool) (tilecode : String)
    (hm : mask.length = points.length)
    (h0 : mask.count true = 0)
    (hc : co.get_components nf.label nf.octree_level nf.min_component_size
      [] = [])
    (ht : co.interp (nf.ahn_reader tilecode).x (nf.ahn_reader tilecode).y
      (nf.ahn_reader tilecode).ground_surface [] = []) :
    nf.get_label_mask co points labels mask tilecode =
      Except.ok (List.replicate points.length false,
        ⟨1, 1, 1, [logMsg nf.label]⟩) := by
  have hnil : maskedPoints points mask = [] :=
    maskedPoints_eq_nil points mask (le_of_eq hm) h0
  have hc' : (componentsOf nf co points mask).length =
      (maskedPoints points mask).length := by
    simp [componentsOf, hnil, hc]
  have ht' : (targetZOf nf co points mask tilecode).length =
      (maskedPoints points mask).length := by
    simp [targetZOf, hnil, ht]
  rw [get_label_mask_eq_ok nf co points labels mask tilecode hm hc' ht',
    scatterMask_all_false mask _ h0, hm]

/-- C3 amended witness: two points, all-false mask. -/
theorem C3_witness :
    nfEx.get_label_mask exCollab [pA, pA] [] [false, false] "t" =
      Except.ok (List.replicate 2 false, ⟨1, 1, 1, [logMsg 1]⟩) := by
  have h := C3_empty_mask nfEx exCollab [pA, pA] [] [false, false] "t"
    (by decide) (by decide) rfl rfl
  simpa using h

/-- C4 counterexample: construction with `epsilon = -1`,
`octree_level = 0` and `min_component_size = 0` succeeds — an instance is
produced (no validation exists in the source) and it even classifies:
with `epsilon = -1` the origin counts as below a ground surface of 0. -/
theorem C4_counterexample :
    (NoiseFilter.init 1 exReader (-1) 0 0).epsilon < 0 ∧
    (NoiseFilter.init 1 exReader (-1) 0 0).octree_level ≤ 0 ∧
    (NoiseFilter.init 1 exReader (-1) 0 0).min_component_size ≤ 0 ∧
    (NoiseFilter.init 1 exReader (-1) 0 0).get_label_mask exCollab [pA] []
        [true] "t" = Except.ok ([true], ⟨1, 1, 1, [logMsg 1]⟩) := by
  refine ⟨by norm_num [NoiseFilter.init], by decide, by decide, ?_⟩
  rw [get_label_mask_eq_ok _ exCollab [pA] [] [true] "t" (by decide) (by decide)
    (by decide)]
  simp only [Except.ok.injEq, Prod.mk.injEq]
  refine ⟨?_, rfl⟩
  norm_num [scatterMask, noiseVector, isSmallList, belowGroundList, smallLabels,
    maskedPoints, componentsOf, targetZOf, exCollab, pA, exReader, exTile,
    NoiseFilter.init]

/-- C4 amended: construction never fails and performs no parameter
validation — for every argument tuple (including `epsilon < 0`,
`octree_level ≤ 0`, `min_component_size ≤ 0`) an instance is produced
whose configuration fields are exactly the given arguments. -/
theorem C4_no_validation (label : ℤ) (reader : String → AhnTile) (eps : ℚ)
    (o m : ℤ) :
    (NoiseFilter.init label reader eps o m).label = label ∧
    (NoiseFilter.init label reader eps o m).ahn_reader = reader ∧
    (NoiseFilter.init label reader eps o m).epsilon = eps ∧
    (NoiseFilter.init label reader eps o m).octree_level = o ∧
    (NoiseFilter.init label reader eps o m).min_component_size = m :=
  ⟨rfl, rfl, rfl, rfl, rfl⟩

/-- C5 counterexample: with `labels` of length 0 but `points` and `mask`
of length 1 (lengths not all equal) the call still succeeds and returns a
mask — no shape error is raised, because `labels` is never inspected. -/
theorem C5_counterexample :
    ([] : List ℤ).length ≠ ([pA] : List Point3).length ∧
    nfEx.get_label_mask exCollab [pA] [] [true] "t" =
      Except.ok ([true], ⟨1, 1, 1, [logMsg 1]⟩) := by
  exact ⟨by decide, rfl⟩

/-- C5 amended: the only shape check performed is NumPy's boolean-index
length check — whenever `mask` and `points` differ in length the call
fails with an index error; the length of `labels` is never checked. -/
theorem C5_shape_check (nf : NoiseFilter) (co : Collab)
    (points : List Point3) (labels : List ℤ) (mask : List Bool)
    (tilecode : String) (hm : mask.length ≠ points.length) :
    nf.get_label_mask co points labels mask tilecode =
      Except.error NFError.indexError := by
  simp [NoiseFilter.get_label_mask, hm]

/-- C5 amended witness: empty mask over one point fails with the index
error. -/
theorem C5_witness :
    nfEx.get_label_mask exCollab [pA] [] [] "t" =
      Except.error NFError.indexError :=
  C5_shape_check nfEx exCollab [pA] [] [] "t" (by decide)

/-- C6: monotonicity in epsilon — holding the masked points and the
interpolated ground heights fixed, every masked point flagged by the
ground criterion under `e2` is also flagged under any `e1 ≤ e2`, so
increasing epsilon never increases the set of ground-flagged points. -/
theorem C6_epsilon_monotone (points : List Point3) (mask : List Bool)
    (tz : List ℚ) (e1 e2 : ℚ) (he : e1 ≤ e2) (j : ℕ)
    (h2 : (belowGroundList (maskedPoints points mask) tz e2).getD j false =
      true) :
    (belowGroundList (maskedPoints points mask) tz e1).getD j false = true := by
  have hlen := getD_true_lt h2
  simp only [belowGroundList, List.length_zipWith, lt_min_iff] at hlen
  rw [belowGroundList_getD _ _ _ _ hlen.1 hlen.2] at h2 ⊢
  rw [decide_eq_true_iff] at h2 ⊢
  exact lt_of_lt_of_le h2 (neg_le_neg he)

/-- C6 witness: a point 1 below ground is flagged at `e2 = 1/2`, hence
also at `e1 = 1/5`. -/
theorem C6_witness :
    (belowGroundList (maskedPoints [⟨0, 0, -1⟩] [true]) [0] (1/5)).getD 0
      false = true :=
  C6_epsilon_monotone [⟨0, 0, -1⟩] [true] [0] (1/5) (1/2) (by norm_num) 0
    (by norm_num [belowGroundList, maskedPoints])

/-- C7: determinism — two calls with the same configuration and inputs,
whose collaborators give identical responses on every query, return
identical results. -/
theorem C7_determinism (nf : NoiseFilter) (co1 co2 : Collab)
    (points : List Point3) (labels : List ℤ) (mask : List Bool)
    (tilecode : String)
    (hgc : ∀ l o m ps, co1.get_components l o m ps = co2.get_components l o m ps)
    (hint : ∀ gx gy s ps, co1.interp gx gy s ps = co2.interp gx gy s ps) :
    nf.get_label_mask co1 points labels mask tilecode =
      nf.get_label_mask co2 points labels mask tilecode := by
  have h1 : co1.get_components = co2.get_components := by
    funext a b c d
    exact hgc a b c d
  have h2 : co1.interp = co2.interp := by
    funext a b c d
    exact hint a b c d
  have hco : co1 = co2 := by
    cases co1
    cases co2
    simp_all
  rw [hco]

/-- C7 witness at the example collaborator. -/
theorem C7_witness :
    nfEx.get_label_mask exCollab [pA] [] [true] "t" =
      nfEx.get_label_mask exCollab [pA] [] [true] "t" :=
  C7_determinism nfEx exCollab exCollab [pA] [] [true] "t"
    (fun _ _ _ _ => rfl) (fun _ _ _ _ => rfl)

/-- C8: noninterference — the `labels` argument is never read, so two
calls differing only in `labels` return the same result. -/
theorem C8_labels_not_read (nf : NoiseFilter) (co : Collab)
    (points : List Point3) (mask : List Bool) (tilecode : String)
    (labels1 labels2 : List ℤ) :
    nf.get_label_mask co points labels1 mask tilecode =
      nf.get_label_mask co points labels2 mask tilecode := rfl

/-- C9: frame condition — a successful call leaves the input arrays
(points, labels, mask) unchanged and prints exactly one log record, the
one naming the processed label. -/
theorem C9_frame_condition (nf : NoiseFilter) (co : Collab) (st : NFStore)
    (tilecode : String) (st2 : NFStore) (lm : List Bool) (log : List String)
    (h : nf.get_label_mask_run co st tilecode = Except.ok (st2, lm, log)) :
    st2.points = st.points ∧ st2.labels = st.labels ∧ st2.mask = st.mask ∧
      log = [logMsg nf.label] := by
  unfold NoiseFilter.get_label_mask_run at h
  split at h
  case h_2 => simp at h
  case h_1 lmtr lm' tr heq =>
    simp only [Except.ok.injEq, Prod.mk.injEq] at h
    obtain ⟨rfl, -, rfl⟩ := h
    obtain ⟨-, -, -, -, rfl⟩ :=
      get_label_mask_ok_inv nf co st.points st.labels st.mask tilecode lm' tr
        heq
    exact ⟨rfl, rfl, rfl, rfl⟩

/-- C9 witness: a concrete successful run leaves the store unchanged and
logs once. -/
theorem C9_witness :
    (⟨[pA], [], [false]⟩ : NFStore).points = ([pA] : List Point3) ∧
    (⟨[pA], [], [false]⟩ : NFStore).labels = ([] : List ℤ) ∧
    (⟨[pA], [], [false]⟩ : NFStore).mask = ([false] : List Bool) ∧
    [logMsg 1] = [logMsg nfEx.label] :=
  C9_frame_condition nfEx exCollab ⟨[pA], [], [false]⟩ "t" ⟨[pA], [], [false]⟩
    [false] [logMsg 1] rfl

/-- C10: monotonicity in the component-size threshold — holding the
component assignment fixed, every point flagged as small under threshold
`t1` is also flagged under any `t2 ≥ t1`. -/
theorem C10_min_size_monotone (cps : List ℤ) (t1 t2 : ℤ) (hle : t1 ≤ t2)
    (j : ℕ)
    (h1 : (isSmallList cps t1).getD j false = true) :
    (isSmallList cps t2).getD j false = true := by
  have hlen := getD_true_lt h1
  simp only [isSmallList, List.length_map] at hlen
  rw [isSmallList_getD _ _ _ hlen] at h1 ⊢
  rw [decide_eq_true_iff] at h1 ⊢
  omega

/-- C10 witness: a singleton component is small at threshold 2, hence
also at threshold 3. -/
theorem C10_witness : (isSmallList [5] 3).getD 0 false = true :=
  C10_min_size_monotone [5] 2 3 (by norm_num) 0 (by decide)

end UPCP
